import Mathlib

/-!
Verification development for the manga-telegram-bot repository
(`src/tbot.py`, `src/MangaReader.py`).

The development shallowly embeds the parts of the source the claims are
about:

* the size-bounded archive-packing loop of `archive_worker`
  (`tbot.py` lines 242-272),
* the sequential page-fetching loop (`tbot.py` lines 209-234),
* the top-level control flow of `archive_worker` with its `finally`
  cleanup (`tbot.py` lines 192-291),
* the `MangaAPI` content-client operations (`tbot.py` lines 42-73),
  in particular the chapter-list sorting of `get_chapters`.

Machine integers do not occur (Python ints are unbounded); file sizes are
`Nat`.  The serialized size of a partially written zip archive is modelled
additively: each written image contributes its byte length, so that the
size measured after appending a file is the sum of the contributions of
the files appended so far.  The pathological packing behaviour proved
below holds for any additive size model, since only the order relation
between the running sum and the ceiling matters.
-/

/-! ## Archive Packer (tbot.py lines 242-272)

The Python inner loop is

```
with zipfile.ZipFile(cbz_filename, 'w') as zipf:
    pages_in_current_part = 0
    while page_index < len(downloaded_page_paths):
        page_path = downloaded_page_paths[page_index]
        zipf.write(page_path, arcname=os.path.basename(page_path))
        if os.path.getsize(cbz_filename) > SAFE_LIMIT and pages_in_current_part > 0:
            page_index -= 1
            break
        pages_in_current_part += 1
        page_index += 1
```

`packPartGo` walks the suffix `downloaded_page_paths[page_index:]` of the
fixed path list (given as the list of the files' size contributions),
carrying the absolute index `idx`, the counter `pages_in_current_part`
and the current archive size `cur`.  It returns the list of absolute
indices of the files written into this zip (the zip holds them all when
it is closed: `zipfile` offers no way to remove an entry, and the Python
code does not reopen the file) together with the value of `page_index`
after the loop.  Note that on overflow the Python code decrements
`page_index` *before* the increment for the file just written has
happened, so the loop resumes one position before that file. -/

def packPartGo (limit : Nat) : List Nat → Nat → Nat → Nat → List Nat × Nat
  | [], idx, _, _ => ([], idx)
  | s :: rest, idx, pages, cur =>
    let cur' := cur + s
    if limit < cur' ∧ 0 < pages then
      ([idx], idx - 1)
    else
      let r := packPartGo limit rest (idx + 1) (pages + 1) cur'
      (idx :: r.1, r.2)

/-- One iteration of the outer `while page_index < len(...)` body of
tbot.py lines 245-264: the files written into the zip sealed by this
iteration, and the value of `page_index` afterwards. -/
def packPart (sizes : List Nat) (limit idx : Nat) : List Nat × Nat :=
  packPartGo limit (sizes.drop idx) idx 0 0

/-- The outer splitting loop (tbot.py line 245), fuelled.  Every
iteration that terminates advances `page_index` by at least one, so
`sizes.length + 1` units of fuel are enough for every terminating
execution; `none` is returned exactly when the Python loop re-enters an
iteration with an unchanged `page_index` and therefore never
terminates. -/
def packLoop (sizes : List Nat) (limit : Nat) : Nat → Nat → Option (List (List Nat))
  | 0, _ => none
  | fuel + 1, idx =>
    if idx < sizes.length then
      match packLoop sizes limit fuel (packPart sizes limit idx).2 with
      | none => none
      | some parts => some ((packPart sizes limit idx).1 :: parts)
    else some []

/-- The Archive Packer: partitions (in intent) the fetched files, given
by their size contributions, into sealed containers.  Each inner list
holds the absolute indices of the files written into one sealed `.cbz`
container, in writing order. -/
def pack (sizes : List Nat) (limit : Nat) : Option (List (List Nat)) :=
  packLoop sizes limit (sizes.length + 1) 0

/-- Serialized size of a sealed container holding the files `part`
(indices into `sizes`), in the additive size model. -/
def partSizeSum (sizes : List Nat) (part : List Nat) : Nat :=
  (part.map (fun i => sizes.getD i 0)).sum

/-- Naming of one sealed container (tbot.py line 246):
`part_name = f"{safe_title}_Part_{part_num}" if not is_single_chapter_download else safe_title`. -/
def partName (safe : String) (isSingle : Bool) (k : Nat) : String :=
  if isSingle then safe else safe ++ "_Part_" ++ toString k

/-- Names of the `n` sealed containers of a job, in part order
(`part_num` starts at 1 and increments once per sealed container,
tbot.py lines 242 and 272). -/
def partNames (safe : String) (isSingle : Bool) (n : Nat) : List String :=
  (List.range n).map (fun i => partName safe isSingle (i + 1))

/-! ## Sequential Fetcher (tbot.py lines 209-234)

A page dictionary is modelled by the only field the pipeline reads,
`b2key`; `none` stands for an absent (or `None`) key and `some ""` for an
empty string, both falsy in the Python guard
`if 'b2key' not in page or not page['b2key']: continue`.

A chapter is modelled by the (deterministic) page list that
`api.get_chapter_pages` returns for it, so the pre-pass page counting of
lines 194-199 and the per-page re-fetch of line 226 see the same list.
The image downloader is a function `dl` from the request URL to `some`
byte list on success and `none` when `requests` raises (which aborts the
whole worker, line 282). -/

structure PageDict where
  b2key : Option String
deriving DecidableEq

def cdnBase : String := "https://meo.comick.pictures/"

/-- The inner per-page loop of tbot.py lines 215-234 for one chapter.
Arguments: downloader, page list, current `current_page_global_index`.
Returns the `(global index, byte length)` pairs of the files written to
the scratch directory (in order), the next global index, the list of
URLs for which a download was attempted, and `false` iff a download
raised (aborting the job). -/
def fetchChapterT (dl : String → Option (List Nat)) :
    List PageDict → Nat → List (Nat × Nat) × Nat × List String × Bool
  | [], g => ([], g, [], true)
  | p :: ps, g =>
    match p.b2key with
    | none => fetchChapterT dl ps g
    | some k =>
      if k = "" then fetchChapterT dl ps g
      else
        match dl (cdnBase ++ k) with
        | none => ([], g, [cdnBase ++ k], false)
        | some bytes =>
          ((g, bytes.length) :: (fetchChapterT dl ps (g + 1)).1,
            (fetchChapterT dl ps (g + 1)).2.1,
            (cdnBase ++ k) :: (fetchChapterT dl ps (g + 1)).2.2.1,
            (fetchChapterT dl ps (g + 1)).2.2.2)

/-- The outer per-chapter loop of tbot.py lines 211-234, starting from
global index `g` (the worker starts it at 1, line 209).  A download
failure in one chapter aborts the remaining chapters. -/
def fetchAllT (dl : String → Option (List Nat)) :
    List (List PageDict) → Nat → List (Nat × Nat) × Nat × List String × Bool
  | [], g => ([], g, [], true)
  | c :: cs, g =>
    if (fetchChapterT dl c g).2.2.2 then
      ((fetchChapterT dl c g).1 ++ (fetchAllT dl cs (fetchChapterT dl c g).2.1).1,
        (fetchAllT dl cs (fetchChapterT dl c g).2.1).2.1,
        (fetchChapterT dl c g).2.2.1
          ++ (fetchAllT dl cs (fetchChapterT dl c g).2.1).2.2.1,
        (fetchAllT dl cs (fetchChapterT dl c g).2.1).2.2.2)
    else ((fetchChapterT dl c g).1, (fetchChapterT dl c g).2.1,
      (fetchChapterT dl c g).2.2.1, false)

/-! ## Title handling (tbot.py lines 167-186) -/

/-- Python substring containment `needle in hay`, on character lists. -/
def charsStartWith : List Char → List Char → Bool
  | [], _ => true
  | _ :: _, [] => false
  | a :: as, b :: bs => a == b && charsStartWith as bs

def charsContain (needle : List Char) : List Char → Bool
  | [] => needle.isEmpty
  | b :: bs => charsStartWith needle (b :: bs) || charsContain needle bs

/-- Python `needle in hay` for strings. -/
def pyIn (needle hay : String) : Bool :=
  charsContain needle.data hay.data

/-- Title sanitization, tbot.py line 186:
`"".join(c for c in archive_title if c.isalnum() or c in (' ', '_')).rstrip()`.
`Char.isAlphanum` is the ASCII reading of `str.isalnum`; after the
filter the only whitespace left is the space character, so stripping
trailing whitespace is stripping trailing spaces. -/
def sanitize (s : String) : String :=
  String.mk (((s.data.filter
    (fun c => c.isAlphanum || c == ' ' || c == '_')).reverse.dropWhile
      Char.isWhitespace).reverse)

/-- The `dl_all` branch of `download_action` (tbot.py line 167): the
archive title of a download-all job is the manga title itself. -/
def dlAllArchiveTitle (mangaTitle : String) : String := mangaTitle

/-- The single-chapter branch of `download_action` (tbot.py line 173):
`archive_title = f"{manga['title']}_Ch_{chapter.get('chap', 'N/A')}"`. -/
def singleArchiveTitle (mangaTitle chap : String) : String :=
  mangaTitle ++ "_Ch_" ++ chap

/-! ## archive_worker control flow (tbot.py lines 180-291) -/

def SAFE_LIMIT : Nat := 48 * 1024 * 1024

inductive Outcome
  /-- Status message "Could not get page counts. Aborting." (line 202): the page plan
  totals zero. -/
  | emptyPlan
  /-- Status message "Could not download any images. Aborting." (line 237): the plan was
  non-zero but every page was skipped. -/
  | noPagesFetched
  /-- All parts sealed and uploaded (lines 274-280). -/
  | success (partsSent : Nat)
  /-- The `except Exception` handler (lines 282-285): a download raised. -/
  | fetchError
deriving DecidableEq

structure Job where
  chapters : List (List PageDict)
  archiveTitle : String

/-- Python `s.startswith(pre)`. -/
def pyStartsWith (pre s : String) : Bool :=
  charsStartWith pre.data s.data

/-- Python `s.endswith(suffix)`. -/
def pyEndsWith (suffix s : String) : Bool :=
  charsStartWith suffix.data.reverse s.data.reverse

/-- Stray-file cleanup, tbot.py lines 288-291: every file in the working
directory ending in `.cbz` or `.zip` and starting with the sanitized
title is removed (file-system operations are modelled as succeeding). -/
def isStray (safe f : String) : Bool :=
  (pyEndsWith ".cbz" f || pyEndsWith ".zip" f) && pyStartsWith safe f

def cleanupStray (files : List String) (safe : String) : List String :=
  files.filter (fun f => !isStray safe f)

/-- Lines 236-280 of tbot.py: what happens after the fetch loop, given
the fetch loop's result `fr`.  `safe` and `isSingle` are `safe_title` and
`is_single_chapter_download`. -/
def archivePackPhase
    (fr : List (Nat × Nat) × Nat × List String × Bool)
    (safe : String) (isSingle : Bool) :
    Option (Outcome × List (List Nat) × List String × List String) :=
  if fr.2.2.2 then
    if fr.1 = [] then some (.noPagesFetched, [], [], fr.2.2.1)
    else
      match pack (fr.1.map Prod.snd) SAFE_LIMIT with
      | none => none
      | some parts =>
        some (.success parts.length, parts,
          partNames safe isSingle parts.length, fr.2.2.1)
  else some (.fetchError, [], [], fr.2.2.1)

/-- The `try` block of `archive_worker` (tbot.py lines 192-280): outcome,
sealed containers, their names and the attempted download URLs, or `none`
when the packing loop never terminates. -/
def archiveCore (dl : String → Option (List Nat)) (job : Job) :
    Option (Outcome × List (List Nat) × List String × List String) :=
  if (job.chapters.map List.length).sum = 0 then
    some (.emptyPlan, [], [], [])
  else
    archivePackPhase (fetchAllT dl job.chapters 1)
      (sanitize job.archiveTitle) (pyIn "_Ch_" job.archiveTitle)

structure WorkerResult where
  outcome : Outcome
  containers : List (List Nat)
  names : List String
  downloads : List String
  scratchLeft : Bool
  files : List String

/-- The function `archive_worker` including its `finally` clause (tbot.py lines
286-291), which runs on every terminal outcome: the scratch directory is
removed and stray title-prefixed container files are deleted from the
initial working-directory listing `cwd`. -/
def archiveWorker (dl : String → Option (List Nat)) (job : Job)
    (cwd : List String) : Option WorkerResult :=
  (archiveCore dl job).map fun res =>
    { outcome := res.1
      containers := res.2.1
      names := res.2.2.1
      downloads := res.2.2.2
      scratchLeft := false
      files := cleanupStray cwd (sanitize job.archiveTitle) }

/-! ## Content Client (tbot.py lines 42-73, MangaReader.py lines 41-104)

Every operation wraps its body in
`try: ... except requests.RequestException as e: raise Exception(f"<op>: {str(e)}")`.
The `requests` failures that can occur inside the body — connection and
timeout errors, the `HTTPError` from `raise_for_status()`, and the
`JSONDecodeError` from `response.json()` (a `RequestException` subclass
in the `requests` versions this code runs against) — are modelled by
`ApiFail`; they are all caught and re-raised as the normalized
`Exception` carrying the operation text and the cause.

`get_chapters` in tbot.py additionally sorts the decoded chapter list:
`chapters.sort(key=lambda x: float(x.get('chap', 0) or 0), reverse=False)`.
`float` is applied to the default `0` when the key is absent and to `0`
when the stored value is falsy (`None`, `''`, `0`); for a non-empty
non-numeric string it raises `ValueError`, which is not a
`RequestException` and therefore escapes the `except` clause raw.
`ChapField` partitions the possible `chap` values by this behaviour, and
`chapKey` is `float(x.get('chap', 0) or 0)` (`none` = raises). -/

inductive ChapField
  /-- The dictionary has no `chap` key. -/
  | absent
  /-- The stored value is falsy: `None`, the empty string, or `0`. -/
  | falsy
  /-- A truthy value that `float` parses to `v`. -/
  | num (v : ℚ)
  /-- A truthy string that `float` rejects. -/
  | bad (s : String)
deriving DecidableEq

def chapKey : ChapField → Option ℚ
  | .absent => some 0
  | .falsy => some 0
  | .num v => some v
  | .bad _ => none

structure ChapterD where
  chap : ChapField
deriving DecidableEq

def keyOf (c : ChapterD) : ℚ := (chapKey c.chap).getD 0

inductive ApiFail
  | transportErr (msg : String)
  | httpErr (code : Nat)
  | jsonErr
deriving DecidableEq

/-- A remote call as seen from inside the `try` block: either one of the
`RequestException` failures or a decoded body. -/
inductive ApiResponse (α : Type)
  | fail (e : ApiFail)
  | ok (body : α)

def failCause : ApiFail → String
  | .transportErr m => m
  | .httpErr c => "HTTPError " ++ toString c
  | .jsonErr => "JSONDecodeError"

/-- What a client operation raises: the normalized
`Exception(f"{op}: {cause}")`, or a raw `ValueError` escaping the
`except requests.RequestException` clause. -/
inductive PyError
  | normalized (op : String) (cause : String)
  | valueError (cause : String)
deriving DecidableEq

namespace MangaAPI

/-- tbot.py lines 42-49 (`search_manga`): result bodies are opaque. -/
def search_manga (resp : ApiResponse (List String)) :
    Except PyError (List String) :=
  match resp with
  | .fail e => .error (.normalized "Search failed" (failCause e))
  | .ok body => .ok body

/-- tbot.py lines 50-59 (`get_chapters`): decode, then sort ascending by
`float(x.get('chap', 0) or 0)`.  Python's `list.sort` is a stable merge
sort; a `ValueError` from any key computation escapes raw. -/
def get_chapters (resp : ApiResponse (List ChapterD)) :
    Except PyError (List ChapterD) :=
  match resp with
  | .fail e => .error (.normalized "Failed to get chapters" (failCause e))
  | .ok body =>
    if body.all (fun c => (chapKey c.chap).isSome) then
      .ok (body.mergeSort (fun a b => decide (keyOf a ≤ keyOf b)))
    else
      .error (.valueError "could not convert string to float")

/-- tbot.py lines 60-67 (`get_chapter_pages`). -/
def get_chapter_pages (resp : ApiResponse (List PageDict)) :
    Except PyError (List PageDict) :=
  match resp with
  | .fail e => .error (.normalized "Failed to get chapter pages" (failCause e))
  | .ok body => .ok body

/-- tbot.py lines 68-73 (`download_image`). -/
def download_image (resp : ApiResponse (List Nat)) :
    Except PyError (List Nat) :=
  match resp with
  | .fail e => .error (.normalized "Failed to download image" (failCause e))
  | .ok body => .ok body

end MangaAPI

namespace MangaReaderAPI

/-- MangaReader.py lines 65-75: the desktop viewer's `get_chapters`.
Identical request and error-normalization shape, but the decoded chapter
list is returned exactly as received — no sorting and no `float` key
computation, so no `ValueError` can arise. -/
def get_chapters (resp : ApiResponse (List ChapterD)) :
    Except PyError (List ChapterD) :=
  match resp with
  | .fail e => .error (.normalized "Failed to get chapters" (failCause e))
  | .ok body => .ok body

end MangaReaderAPI

/-! ## Lemmas about the packing loop -/

/-- Every zip opened while files remain receives at least one file
(`pages_in_current_part > 0` is required before the early `break`). -/
theorem packPartGo_fst_ne_nil (limit : Nat) (rest : List Nat)
    (idx pages cur : Nat) (h : rest ≠ []) :
    (packPartGo limit rest idx pages cur).1 ≠ [] := by
  match rest with
  | [] => exact absurd rfl h
  | s :: rest' =>
    unfold packPartGo
    dsimp only
    split
    · simp
    · simp

/-- The cursor after one sealed part never passes the end of the list. -/
theorem packPartGo_snd_le (limit : Nat) (rest : List Nat) :
    ∀ idx pages cur,
      (packPartGo limit rest idx pages cur).2 ≤ idx + rest.length := by
  induction rest with
  | nil => intro idx pages cur; simp [packPartGo]
  | cons s rest' ih =>
    intro idx pages cur
    unfold packPartGo
    dsimp only
    split
    · simp only [List.length_cons]
      omega
    · have := ih (idx + 1) (pages + 1) (cur + s)
      simp only [List.length_cons]
      omega

/-- If one sealed part consumed its whole suffix (the cursor reached the
end), then either the suffix was empty, or the ceiling was never
exceeded after the first file, or the suffix was a single file appended
while `pages_in_current_part = 0`. -/
theorem packPartGo_snd_eq_end (limit : Nat) (rest : List Nat) :
    ∀ idx pages cur,
      (packPartGo limit rest idx pages cur).2 = idx + rest.length →
      rest = [] ∨ cur + rest.sum ≤ limit ∨ (pages = 0 ∧ rest.length = 1) := by
  induction rest with
  | nil => intro idx pages cur _; exact Or.inl rfl
  | cons s rest' ih =>
    intro idx pages cur h
    unfold packPartGo at h
    dsimp only at h
    split at h
    · simp only [List.length_cons] at h
      omega
    · rename_i hbreak
      simp only [List.length_cons] at h
      have h' : (packPartGo limit rest' (idx + 1) (pages + 1) (cur + s)).2
          = (idx + 1) + rest'.length := by omega
      rcases ih (idx + 1) (pages + 1) (cur + s) h' with hnil | hle | hz
      · subst hnil
        rcases Nat.eq_zero_or_pos pages with hp | hp
        · exact Or.inr (Or.inr ⟨hp, rfl⟩)
        · refine Or.inr (Or.inl ?_)
          have : ¬ limit < cur + s := fun hlt => hbreak ⟨hlt, hp⟩
          simp only [List.sum_cons, List.sum_nil]
          omega
      · refine Or.inr (Or.inl ?_)
        simp only [List.sum_cons] at hle ⊢
        omega
      · omega

/-- If the running size never exceeds the ceiling, one part takes every
remaining file, in order. -/
theorem packPartGo_no_overflow (limit : Nat) (rest : List Nat) :
    ∀ idx pages cur, cur + rest.sum ≤ limit →
      packPartGo limit rest idx pages cur
        = (List.range' idx rest.length, idx + rest.length) := by
  induction rest with
  | nil => intro idx pages cur _; simp [packPartGo]
  | cons s rest' ih =>
    intro idx pages cur hle
    simp only [List.sum_cons] at hle
    unfold packPartGo
    dsimp only
    rw [if_neg (by omega)]
    rw [ih (idx + 1) (pages + 1) (cur + s) (by omega)]
    simp only [List.length_cons, List.range'_succ]
    have harith : idx + 1 + rest'.length = idx + (rest'.length + 1) := by omega
    rw [harith]

/-- Every sealed container of a terminating packing run is nonempty. -/
theorem packLoop_parts_ne_nil (sizes : List Nat) (limit : Nat) :
    ∀ fuel idx ps, packLoop sizes limit fuel idx = some ps →
      ∀ p ∈ ps, p ≠ [] := by
  intro fuel
  induction fuel with
  | zero => intro idx ps h; exact absurd h (by simp [packLoop])
  | succ fuel ih =>
    intro idx ps h
    unfold packLoop at h
    split at h
    · rename_i hidx
      rcases hpl : packLoop sizes limit fuel (packPart sizes limit idx).2 with _ | parts
      · rw [hpl] at h; exact absurd h (by simp)
      · rw [hpl] at h
        simp only [Option.some.injEq] at h
        subst h
        intro p hp
        rcases List.mem_cons.mp hp with hp | hp
        · subst hp
          apply packPartGo_fst_ne_nil
          intro hnil
          have := List.drop_eq_nil_iff.mp hnil
          omega
        · exact ih _ parts hpl p hp
    · simp only [Option.some.injEq] at h
      subst h
      intro p hp
      exact absurd hp (List.not_mem_nil p)

/-- A packing run entered with files remaining seals at least one
container. -/
theorem packLoop_ne_nil (sizes : List Nat) (limit : Nat)
    (fuel idx : Nat) (ps : List (List Nat))
    (h : packLoop sizes limit fuel idx = some ps)
    (hidx : idx < sizes.length) : ps ≠ [] := by
  match fuel with
  | 0 => exact absurd h (by simp [packLoop])
  | fuel + 1 =>
    unfold packLoop at h
    rw [if_pos hidx] at h
    rcases hpl : packLoop sizes limit fuel (packPart sizes limit idx).2 with _ | parts
    · rw [hpl] at h; exact absurd h (by simp)
    · rw [hpl] at h
      simp only [Option.some.injEq] at h
      subst h
      simp

/-- When the total size of the fetched files stays within the ceiling,
the packer seals exactly one container holding every file in order. -/
theorem pack_within_limit (sizes : List Nat) (limit : Nat)
    (hne : sizes ≠ []) (hle : sizes.sum ≤ limit) :
    pack sizes limit = some [List.range' 0 sizes.length] := by
  obtain ⟨m, hm⟩ : ∃ m, sizes.length = m + 1 := by
    rcases sizes with _ | ⟨a, l⟩
    · exact absurd rfl hne
    · exact ⟨l.length, rfl⟩
  have hpos : 0 < sizes.length := by omega
  have hpart : packPart sizes limit 0 = (List.range' 0 sizes.length, sizes.length) := by
    unfold packPart
    rw [List.drop_zero]
    have := packPartGo_no_overflow limit sizes 0 0 0 (by omega)
    rw [Nat.zero_add] at this
    exact this
  unfold pack
  unfold packLoop
  rw [if_pos hpos, hpart]
  rw [hm]
  unfold packLoop
  rw [if_neg (by omega)]

/-- When there are at least two files and the total size exceeds the
ceiling, every terminating packing run seals at least two containers. -/
theorem pack_overflow_ge_two (sizes : List Nat) (limit : Nat)
    (parts : List (List Nat))
    (hlen : 2 ≤ sizes.length) (hgt : limit < sizes.sum)
    (h : pack sizes limit = some parts) : 2 ≤ parts.length := by
  unfold pack at h
  unfold packLoop at h
  rw [if_pos (by omega)] at h
  rcases hpl : packLoop sizes limit sizes.length (packPart sizes limit 0).2 with _ | parts'
  · rw [hpl] at h; exact absurd h (by simp)
  · rw [hpl] at h
    simp only [Option.some.injEq] at h
    subst h
    have hgo : packPart sizes limit 0 = packPartGo limit sizes 0 0 0 := by
      unfold packPart
      rw [List.drop_zero]
    have hsnd : (packPart sizes limit 0).2 < sizes.length := by
      rw [hgo]
      have hle2 := packPartGo_snd_le limit sizes 0 0 0
      have hne2 : (packPartGo limit sizes 0 0 0).2 ≠ sizes.length := by
        intro heq
        rcases packPartGo_snd_eq_end limit sizes 0 0 0 (by omega) with h1 | h1 | h1
        · subst h1; simp at hlen
        · omega
        · omega
      omega
    have := packLoop_ne_nil sizes limit sizes.length _ parts' hpl hsnd
    have : 0 < parts'.length := List.length_pos.mpr this
    simp only [List.length_cons]
    omega

/-- The container-name list of every terminating `archive_worker` run is
either empty or `partNames safe isSingle n` for `n` sealed containers. -/
theorem archivePackPhase_names
    (fr : List (Nat × Nat) × Nat × List String × Bool)
    (safe : String) (isSingle : Bool)
    (a : Outcome × List (List Nat) × List String × List String)
    (h : archivePackPhase fr safe isSingle = some a) :
    a.2.2.1 = [] ∨ a.2.2.1 = partNames safe isSingle a.2.1.length := by
  unfold archivePackPhase at h
  split at h
  · split at h
    · simp only [Option.some.injEq] at h
      subst h
      exact Or.inl rfl
    · rcases hp : pack (fr.1.map Prod.snd) SAFE_LIMIT with _ | parts
      · rw [hp] at h; exact absurd h (by simp)
      · rw [hp] at h
        simp only [Option.some.injEq] at h
        subst h
        exact Or.inr rfl
  · simp only [Option.some.injEq] at h
    subst h
    exact Or.inl rfl

/-- With the single-chapter flag set, every container name is the bare
sanitized title. -/
theorem partNames_single (safe : String) (n : Nat) :
    partNames safe true n = List.replicate n safe := by
  simp [partNames, partName, List.map_const', List.length_range]

/-! ## Lemmas about the fetch loop -/

/-- One chapter whose pages all carry a usable key, fetched with a
downloader that never fails, contributes exactly its pages, numbered
consecutively from the incoming global index. -/
theorem fetchChapterT_spec (dl : String → Option (List Nat))
    (hdl : ∀ u, (dl u).isSome) (ps : List PageDict) :
    ∀ g : Nat, (∀ p ∈ ps, p.b2key.getD "" ≠ "") →
      (fetchChapterT dl ps g).1.map Prod.fst = List.range' g ps.length
      ∧ (fetchChapterT dl ps g).2.1 = g + ps.length
      ∧ (fetchChapterT dl ps g).2.2.2 = true := by
  induction ps with
  | nil => intro g _; simp [fetchChapterT]
  | cons p ps ih =>
    intro g hk
    have hp := hk p (List.mem_cons_self p ps)
    rcases hb : p.b2key with _ | k
    · rw [hb] at hp; simp at hp
    · have hkne : k ≠ "" := by rw [hb] at hp; simpa using hp
      rcases hd : dl (cdnBase ++ k) with _ | bytes
      · have := hdl (cdnBase ++ k)
        rw [hd] at this
        simp at this
      · have ihg := ih (g + 1) (fun q hq => hk q (List.mem_cons_of_mem p hq))
        unfold fetchChapterT
        rw [hb]
        simp only [if_neg hkne, hd]
        refine ⟨?_, ?_, ihg.2.2⟩
        · simp only [List.map_cons]
          rw [ihg.1]
          simp only [List.length_cons, List.range'_succ]
        · rw [ihg.2.1]
          simp only [List.length_cons]
          omega

/-- The whole fetch loop over a chapter list with usable keys and a
never-failing downloader: the written files carry the consecutive global
indices starting at `g`, one per page of the plan. -/
theorem fetchAllT_spec (dl : String → Option (List Nat))
    (hdl : ∀ u, (dl u).isSome) (cs : List (List PageDict)) :
    ∀ g : Nat, (∀ c ∈ cs, ∀ p ∈ c, p.b2key.getD "" ≠ "") →
      (fetchAllT dl cs g).1.map Prod.fst
        = List.range' g ((cs.map List.length).sum)
      ∧ (fetchAllT dl cs g).2.1 = g + (cs.map List.length).sum
      ∧ (fetchAllT dl cs g).2.2.2 = true := by
  induction cs with
  | nil => intro g _; simp [fetchAllT]
  | cons c cs ih =>
    intro g hk
    have hc := fetchChapterT_spec dl hdl c g
      (hk c (List.mem_cons_self c cs))
    have ihg := ih (g + c.length)
      (fun d hd => hk d (List.mem_cons_of_mem c hd))
    unfold fetchAllT
    rw [if_pos hc.2.2, hc.2.1]
    refine ⟨?_, ?_, ihg.2.2⟩
    · simp only [List.map_append]
      rw [hc.1, ihg.1]
      simp only [List.map_cons, List.sum_cons]
      have := List.range'_append_1 g c.length ((cs.map List.length).sum)
      rw [Nat.add_comm ((cs.map List.length).sum) c.length] at this
      exact this
    · rw [ihg.2.1]
      simp only [List.map_cons, List.sum_cons]
      omega

/-! ## Claim theorems -/

/-- C1: the claim states that every sealed container except a singleton
stays within the ceiling because the overflowing file is removed before
sealing.  The code does not remove it: with file sizes `[10,10,10,10]`
and ceiling `25`, the first sealed container holds the three files
`0,1,2` and has serialized size `30 > 25`.  (The cursor is then stepped
back to file `1`, so the run also duplicates files, see C2.) -/
theorem c1_oversized_container :
    pack [10, 10, 10, 10] 25 = some [[0, 1, 2], [1, 2, 3], [2, 3]]
    ∧ partSizeSum [10, 10, 10, 10] [0, 1, 2] = 30
    ∧ 25 < partSizeSum [10, 10, 10, 10] [0, 1, 2]
    ∧ 2 ≤ ([0, 1, 2] : List Nat).length := by
  refine ⟨rfl, rfl, ?_, ?_⟩ <;> decide

/-- C2: the claim states that concatenating the sealed containers in
part order reproduces the fetched list exactly.  With file sizes
`[10,10,10,10]` and ceiling `25` the sealed containers are
`[0,1,2], [1,2,3], [2,3]`: files `1`, `2` and `3` are duplicated across
containers, so the concatenation is not the original list `[0,1,2,3]`. -/
theorem c2_no_partition :
    pack [10, 10, 10, 10] 25 = some [[0, 1, 2], [1, 2, 3], [2, 3]]
    ∧ ([0, 1, 2] ++ [1, 2, 3] ++ [2, 3] : List Nat) ≠ List.range 4 := by
  refine ⟨rfl, ?_⟩
  decide

/-- C3 (counterexample): a single-chapter job
(`is_single_chapter_download = true`) that exceeds the ceiling — sizes
`[20,20,20,20,20]`, ceiling `45` — seals four containers, and every one
of them is named with the bare title and no `_Part_` suffix, contrary to
the claim that every splitting job names its containers `_Part_<k>`. -/
theorem c3_single_chapter_split_names :
    pack [20, 20, 20, 20, 20] 45
      = some [[0, 1, 2], [1, 2, 3], [2, 3, 4], [3, 4]]
    ∧ partNames "T" true 4 = ["T", "T", "T", "T"]
    ∧ partName "T" true 1 ≠ "T_Part_1" := by
  refine ⟨rfl, rfl, ?_⟩
  decide

/-- C3 (amended): a job whose files fit within the ceiling seals exactly
one container holding every file; a job with at least two files whose
total exceeds the ceiling seals at least two containers (when the
packing loop terminates); containers of a single-chapter job are always
named with the bare sanitized title and no part suffix, even when
splitting occurs, while containers of a multi-chapter job are always
named `_Part_<k>` with `k` starting at 1, even when only one container
is produced. -/
theorem c3_naming_and_split (sizes : List Nat) (limit : Nat)
    (parts : List (List Nat)) (safe : String)
    (h : pack sizes limit = some parts) :
    (sizes ≠ [] → sizes.sum ≤ limit → parts = [List.range' 0 sizes.length])
    ∧ (2 ≤ sizes.length → limit < sizes.sum → 2 ≤ parts.length)
    ∧ partNames safe true parts.length = List.replicate parts.length safe
    ∧ partNames safe false parts.length
        = (List.range parts.length).map (fun i => safe ++ "_Part_" ++ toString (i + 1)) := by
  refine ⟨?_, ?_, ?_, ?_⟩
  · intro hne hle
    have := pack_within_limit sizes limit hne hle
    rw [h] at this
    exact Option.some_injective _ this
  · intro hlen hgt
    exact pack_overflow_ge_two sizes limit parts hlen hgt h
  · simp [partNames, partName, List.map_const', List.length_range]
  · simp [partNames, partName]

/-- C3 (witness for the amended theorem): two files of size 5 with
ceiling 48 seal exactly one container `[0, 1]`. -/
theorem c3_naming_and_split_witness :
    pack [5, 5] 48 = some [[0, 1]]
    ∧ (([5, 5] : List Nat) ≠ [] → ([5, 5] : List Nat).sum ≤ 48 →
        [[0, 1]] = [List.range' 0 ([5, 5] : List Nat).length])
    ∧ (2 ≤ ([5, 5] : List Nat).length → 48 < ([5, 5] : List Nat).sum →
        2 ≤ ([[0, 1]] : List (List Nat)).length)
    ∧ partNames "T" true ([[0, 1]] : List (List Nat)).length
        = List.replicate ([[0, 1]] : List (List Nat)).length "T"
    ∧ partNames "T" false ([[0, 1]] : List (List Nat)).length
        = (List.range ([[0, 1]] : List (List Nat)).length).map
            (fun i => "T" ++ "_Part_" ++ toString (i + 1)) :=
  ⟨rfl, (c3_naming_and_split [5, 5] 48 [[0, 1]] "T" rfl).1,
    (c3_naming_and_split [5, 5] 48 [[0, 1]] "T" rfl).2.1,
    (c3_naming_and_split [5, 5] 48 [[0, 1]] "T" rfl).2.2.1,
    (c3_naming_and_split [5, 5] 48 [[0, 1]] "T" rfl).2.2.2⟩

/-- C4: when the plan totals `N > 0` pages, every page has a non-empty
image key and every download succeeds, exactly `N` fetched page files
are written and their global sequence numbers are `1..N`, in chapter
order and page order within each chapter. -/
theorem c4_fetch_indices (dl : String → Option (List Nat))
    (chapters : List (List PageDict))
    (_hN : 0 < (chapters.map List.length).sum)
    (hk : ∀ c ∈ chapters, ∀ p ∈ c, p.b2key.getD "" ≠ "")
    (hdl : ∀ u, (dl u).isSome) :
    (fetchAllT dl chapters 1).1.map Prod.fst
      = List.range' 1 ((chapters.map List.length).sum)
    ∧ (fetchAllT dl chapters 1).1.length = (chapters.map List.length).sum
    ∧ (fetchAllT dl chapters 1).2.2.2 = true := by
  have h := fetchAllT_spec dl hdl chapters 1 hk
  refine ⟨h.1, ?_, h.2.2⟩
  have hlen := congrArg List.length h.1
  simpa using hlen

/-- C4 (witness): two chapters with page plans `[1, 2]` and a downloader
that always succeeds write three files with global indices `1, 2, 3`. -/
theorem c4_fetch_indices_witness :
    (0 < (([[⟨some "a"⟩], [⟨some "b"⟩, ⟨some "c"⟩]] : List (List PageDict)).map
      List.length).sum)
    ∧ ((fetchAllT (fun _ => some [7])
          [[⟨some "a"⟩], [⟨some "b"⟩, ⟨some "c"⟩]] 1).1.map Prod.fst
        = List.range' 1
            ((([[⟨some "a"⟩], [⟨some "b"⟩, ⟨some "c"⟩]] : List (List PageDict)).map
              List.length).sum)
      ∧ (fetchAllT (fun _ => some [7])
          [[⟨some "a"⟩], [⟨some "b"⟩, ⟨some "c"⟩]] 1).1.length
          = (([[⟨some "a"⟩], [⟨some "b"⟩, ⟨some "c"⟩]] : List (List PageDict)).map
              List.length).sum
      ∧ (fetchAllT (fun _ => some [7])
          [[⟨some "a"⟩], [⟨some "b"⟩, ⟨some "c"⟩]] 1).2.2.2 = true) :=
  ⟨by decide,
    c4_fetch_indices (fun _ => some [7]) [[⟨some "a"⟩], [⟨some "b"⟩, ⟨some "c"⟩]]
      (by decide) (by decide) (fun u => rfl)⟩

/-- C5 (counterexample): a single file whose size `60` already exceeds
the ceiling `48` is not written alone when another file follows: the
first sealed container of the run on sizes `[60, 10]` holds both files
`0` and `1`, and the cursor is then reset to `0`, after which the
splitting loop never terminates (modelled by `pack` returning `none`). -/
theorem c5_oversized_not_alone :
    packPart [60, 10] 48 0 = ([0, 1], 0)
    ∧ pack [60, 10] 48 = none
    ∧ 48 < 60 := by
  refine ⟨rfl, rfl, ?_⟩
  decide

/-- C5 (amended): every sealed container of a terminating packing run
holds at least one file, and a job consisting of a single file — even
one larger than the ceiling — is written alone into one container; but
an oversized file followed by further files is not sealed alone (the
next file joins it and the run does not terminate, see the
counterexample). -/
theorem c5_containers_nonempty (sizes : List Nat) (limit : Nat)
    (parts : List (List Nat)) (h : pack sizes limit = some parts) :
    (∀ p ∈ parts, p ≠ []) ∧ (∀ s : Nat, sizes = [s] → parts = [[0]]) := by
  constructor
  · exact packLoop_parts_ne_nil sizes limit (sizes.length + 1) 0 parts h
  · intro s hs
    subst hs
    have hone : pack [s] limit = some [[0]] := by
      simp [pack, packLoop, packPart, packPartGo]
    rw [hone] at h
    exact (Option.some_injective _ h).symm

/-- C5 (witness for the amended theorem): a lone file of size 100 with
ceiling 48 is sealed alone into the single container `[0]`. -/
theorem c5_containers_nonempty_witness :
    pack [100] 48 = some [[0]]
    ∧ (∀ p ∈ ([[0]] : List (List Nat)), p ≠ [])
    ∧ (∀ s : Nat, ([100] : List Nat) = [s] → ([[0]] : List (List Nat)) = [[0]]) :=
  ⟨rfl, (c5_containers_nonempty [100] 48 [[0]] rfl).1,
    (c5_containers_nonempty [100] 48 [[0]] rfl).2⟩

/-- C6: when the page plan totals zero pages, the worker terminates with
the distinct no-pages outcome before attempting any image download, no
container is produced, and no scratch directory is left (it is never
created; the finalizer removes any leftover). -/
theorem c6_empty_plan (dl : String → Option (List Nat)) (job : Job)
    (cwd : List String) (h : (job.chapters.map List.length).sum = 0) :
    archiveWorker dl job cwd
      = some ⟨.emptyPlan, [], [], [], false,
          cleanupStray cwd (sanitize job.archiveTitle)⟩ := by
  simp [archiveWorker, archiveCore, h]

/-- C6 (witness): a job with no chapters aborts with the empty-plan
outcome, downloads nothing and seals nothing. -/
theorem c6_empty_plan_witness :
    ((([] : List (List PageDict)).map List.length).sum = 0)
    ∧ archiveWorker (fun _ => none) ⟨[], "A"⟩ ["A_old.cbz", "keep.txt"]
        = some ⟨.emptyPlan, [], [], [], false,
            cleanupStray ["A_old.cbz", "keep.txt"] (sanitize "A")⟩ :=
  ⟨rfl, c6_empty_plan (fun _ => none) ⟨[], "A"⟩ ["A_old.cbz", "keep.txt"] rfl⟩

/-- C7: every terminating run of the worker — success, empty plan, no
pages fetched, or a download error — leaves no scratch directory and no
container file whose name starts with the job's sanitized title. -/
theorem c7_cleanup (dl : String → Option (List Nat)) (job : Job)
    (cwd : List String) (r : WorkerResult)
    (h : archiveWorker dl job cwd = some r) :
    r.scratchLeft = false
    ∧ ∀ f ∈ r.files, isStray (sanitize job.archiveTitle) f = false := by
  unfold archiveWorker at h
  rcases hc : archiveCore dl job with _ | a
  · rw [hc] at h; exact absurd h (by simp)
  · rw [hc] at h
    simp only [Option.map_some', Option.some.injEq] at h
    subst h
    refine ⟨rfl, ?_⟩
    intro f hf
    unfold cleanupStray at hf
    have hp := (List.mem_filter.mp hf).2
    simpa using hp

/-- C7 (witness): a successful one-page job removes the stray
title-prefixed container from the working directory and leaves no
scratch directory. -/
theorem c7_cleanup_witness :
    archiveWorker (fun _ => some [7]) ⟨[[⟨some "k"⟩]], "A"⟩ ["A_x.cbz", "keep.txt"]
      = some ⟨.success 1, [[0]], ["A_Part_1"],
          ["https://meo.comick.pictures/k"], false, ["keep.txt"]⟩
    ∧ ((⟨.success 1, [[0]], ["A_Part_1"],
          ["https://meo.comick.pictures/k"], false, ["keep.txt"]⟩ : WorkerResult).scratchLeft
          = false
      ∧ ∀ f ∈ (⟨.success 1, [[0]], ["A_Part_1"],
            ["https://meo.comick.pictures/k"], false, ["keep.txt"]⟩ : WorkerResult).files,
          isStray (sanitize (Job.mk [[⟨some "k"⟩]] "A").archiveTitle) f = false) :=
  ⟨rfl, c7_cleanup (fun _ => some [7]) ⟨[[⟨some "k"⟩]], "A"⟩
    ["A_x.cbz", "keep.txt"] _ rfl⟩

/-- C10: the single-chapter naming flag is
`"_Ch_" in archive_title` (tbot.py line 185), and a download-all job
whose manga title itself contains `"_Ch_"` therefore packages every
sealed container under the bare sanitized title with no part suffix,
however many containers are produced. -/
theorem c10_dl_all_ch_in_title (dl : String → Option (List Nat))
    (cwd : List String) (chapters : List (List PageDict))
    (mangaTitle : String) (r : WorkerResult)
    (hc : pyIn "_Ch_" mangaTitle = true)
    (hw : archiveWorker dl ⟨chapters, dlAllArchiveTitle mangaTitle⟩ cwd = some r) :
    ∀ nm ∈ r.names, nm = sanitize mangaTitle := by
  unfold archiveWorker at hw
  rcases hcore : archiveCore dl ⟨chapters, dlAllArchiveTitle mangaTitle⟩ with _ | a
  · rw [hcore] at hw; exact absurd hw (by simp)
  · rw [hcore] at hw
    simp only [Option.map_some', Option.some.injEq] at hw
    subst hw
    have hnames : a.2.2.1 = []
        ∨ a.2.2.1 = partNames (sanitize mangaTitle) (pyIn "_Ch_" mangaTitle)
            a.2.1.length := by
      unfold archiveCore at hcore
      split at hcore
      · simp only [Option.some.injEq] at hcore
        subst hcore
        exact Or.inl rfl
      · exact archivePackPhase_names _ _ _ a hcore
    rcases hnames with hn | hn
    · intro nm hnm
      rw [hn] at hnm
      exact absurd hnm (List.not_mem_nil nm)
    · intro nm hnm
      rw [hn, hc, partNames_single] at hnm
      exact List.eq_of_mem_replicate hnm

/-- C10 (witness): a download-all job for the manga titled
`"My_Ch_Manga"` (which contains `_Ch_`) seals one container named with
the bare sanitized title. -/
theorem c10_dl_all_ch_in_title_witness :
    pyIn "_Ch_" "My_Ch_Manga" = true
    ∧ archiveWorker (fun _ => some [7])
        ⟨[[⟨some "k"⟩]], dlAllArchiveTitle "My_Ch_Manga"⟩ []
        = some ⟨.success 1, [[0]], ["My_Ch_Manga"],
            ["https://meo.comick.pictures/k"], false, []⟩
    ∧ ∀ nm ∈ (⟨.success 1, [[0]], ["My_Ch_Manga"],
          ["https://meo.comick.pictures/k"], false, []⟩ : WorkerResult).names,
        nm = sanitize "My_Ch_Manga" :=
  ⟨rfl, rfl,
    c10_dl_all_ch_in_title (fun _ => some [7]) [] [[⟨some "k"⟩]]
      "My_Ch_Manga" _ rfl rfl⟩

/-- C8 (counterexample): a chapter-list response decoding to a chapter
whose number is the non-numeric string `"extra"` makes `get_chapters`
raise a raw `ValueError` from `float()` during sorting — the
`except requests.RequestException` clause does not catch it, so a
non-normalized exception type escapes to the caller. -/
theorem c8_raw_value_error_escapes :
    MangaAPI.get_chapters (ApiResponse.ok [⟨ChapField.bad "extra"⟩])
      = Except.error (PyError.valueError "could not convert string to float") :=
  rfl

/-- C8 (amended): transport, HTTP-status and JSON-decode failures of
every client operation are normalized to the single error kind carrying
the attempted operation and the underlying cause; `get_chapters` alone
can additionally let a raw `ValueError` escape, and only when the
decoded body contains a chapter whose number is non-numeric. -/
theorem c8_normalized_errors :
    (∀ (resp : ApiResponse (List String)) (err : PyError),
        MangaAPI.search_manga resp = .error err →
        ∃ op cause, err = PyError.normalized op cause)
    ∧ (∀ (resp : ApiResponse (List PageDict)) (err : PyError),
        MangaAPI.get_chapter_pages resp = .error err →
        ∃ op cause, err = PyError.normalized op cause)
    ∧ (∀ (resp : ApiResponse (List Nat)) (err : PyError),
        MangaAPI.download_image resp = .error err →
        ∃ op cause, err = PyError.normalized op cause)
    ∧ (∀ (resp : ApiResponse (List ChapterD)) (err : PyError),
        MangaAPI.get_chapters resp = .error err →
        (∃ op cause, err = PyError.normalized op cause)
        ∨ ∃ body, resp = .ok body ∧ ∃ c ∈ body, chapKey c.chap = none) := by
  refine ⟨?_, ?_, ?_, ?_⟩
  · intro resp err h
    cases resp with
    | fail e =>
      simp only [MangaAPI.search_manga, Except.error.injEq] at h
      exact ⟨_, _, h.symm⟩
    | ok body => exact absurd h (by simp [MangaAPI.search_manga])
  · intro resp err h
    cases resp with
    | fail e =>
      simp only [MangaAPI.get_chapter_pages, Except.error.injEq] at h
      exact ⟨_, _, h.symm⟩
    | ok body => exact absurd h (by simp [MangaAPI.get_chapter_pages])
  · intro resp err h
    cases resp with
    | fail e =>
      simp only [MangaAPI.download_image, Except.error.injEq] at h
      exact ⟨_, _, h.symm⟩
    | ok body => exact absurd h (by simp [MangaAPI.download_image])
  · intro resp err h
    cases resp with
    | fail e =>
      simp only [MangaAPI.get_chapters, Except.error.injEq] at h
      exact Or.inl ⟨_, _, h.symm⟩
    | ok body =>
      simp only [MangaAPI.get_chapters] at h
      split at h
      · exact absurd h (by simp)
      · rename_i hall
        refine Or.inr ⟨body, rfl, ?_⟩
        rw [List.all_eq_true] at hall
        push_neg at hall
        obtain ⟨c, hcmem, hcn⟩ := hall
        refine ⟨c, hcmem, ?_⟩
        rw [← Option.not_isSome_iff_eq_none]
        simpa using hcn

/-- C8 (witness for the amended theorem): a JSON-decode failure of the
search operation is raised as the normalized error. -/
theorem c8_normalized_errors_witness :
    MangaAPI.search_manga (ApiResponse.fail ApiFail.jsonErr)
      = Except.error (PyError.normalized "Search failed" "JSONDecodeError")
    ∧ ∃ op cause, PyError.normalized "Search failed" "JSONDecodeError"
        = PyError.normalized op cause :=
  ⟨rfl, c8_normalized_errors.1 (ApiResponse.fail ApiFail.jsonErr) _ rfl⟩

/-- C9 (counterexample): neither cited `get_chapters` matches the claim.
The bot client (tbot.py lines 50-59) raises a raw `ValueError` from
`float("x")` instead of sorting the non-numeric chapter as `0` — the
call returns no list at all; and the viewer client (MangaReader.py
lines 65-75) performs no sorting: chapters numbered `2, 1` come back in
response order, which is not ascending by numeric chapter number. -/
theorem c9_not_sorted_as_claimed :
    MangaAPI.get_chapters (ApiResponse.ok [⟨ChapField.num 1⟩, ⟨ChapField.bad "x"⟩])
      = Except.error (PyError.valueError "could not convert string to float")
    ∧ MangaReaderAPI.get_chapters
        (ApiResponse.ok [⟨ChapField.num 2⟩, ⟨ChapField.num 1⟩])
      = Except.ok [⟨ChapField.num 2⟩, ⟨ChapField.num 1⟩]
    ∧ ¬ ([⟨ChapField.num 2⟩, ⟨ChapField.num 1⟩] : List ChapterD).Pairwise
        (fun a b => keyOf a ≤ keyOf b) := by
  refine ⟨rfl, rfl, ?_⟩
  decide

/-- C9 (amended): the two implementations of `listChapters` differ.  The
bot client's `get_chapters` returns the decoded chapters sorted
ascending (stably) by `float(x.get('chap', 0) or 0)` whenever every
chapter number is missing, falsy or numeric — missing and falsy numbers
sort as `0` — and raises `ValueError`, returning no list, when some
chapter number is a non-empty non-numeric string (see the
counterexample); the viewer client's `get_chapters` performs no sorting
and returns the decoded chapter list exactly as received. -/
theorem c9_per_client_sorting (body : List ChapterD)
    (h : ∀ c ∈ body, (chapKey c.chap).isSome) :
    (∃ l, MangaAPI.get_chapters (ApiResponse.ok body) = .ok l
      ∧ List.Perm l body
      ∧ l.Pairwise (fun a b => keyOf a ≤ keyOf b))
    ∧ ∀ body2 : List ChapterD,
        MangaReaderAPI.get_chapters (ApiResponse.ok body2) = .ok body2 := by
  constructor
  · have hall : (body.all fun c => (chapKey c.chap).isSome) = true :=
      List.all_eq_true.mpr (fun c hc => by simpa using h c hc)
    refine ⟨body.mergeSort (fun a b => decide (keyOf a ≤ keyOf b)), ?_, ?_, ?_⟩
    · simp only [MangaAPI.get_chapters]
      rw [if_pos hall]
    · exact List.mergeSort_perm body _
    · have hs : (body.mergeSort (fun a b => decide (keyOf a ≤ keyOf b))).Pairwise
          (fun a b => decide (keyOf a ≤ keyOf b)) := by
        apply List.sorted_mergeSort
        · intro a b c hab hbc
          simp only [decide_eq_true_eq] at hab hbc ⊢
          exact le_trans hab hbc
        · intro a b
          simp only [Bool.or_eq_true, decide_eq_true_eq]
          exact le_total (keyOf a) (keyOf b)
      exact hs.imp (fun hab => by simpa using hab)
  · intro body2
    rfl

/-- C9 (witness for the amended theorem): chapters numbered `2` and `1`
are returned sorted ascending by the bot client and unchanged by the
viewer client. -/
theorem c9_per_client_sorting_witness :
    (∀ c ∈ ([⟨ChapField.num 2⟩, ⟨ChapField.num 1⟩] : List ChapterD),
        (chapKey c.chap).isSome)
    ∧ ((∃ l, MangaAPI.get_chapters
          (ApiResponse.ok [⟨ChapField.num 2⟩, ⟨ChapField.num 1⟩]) = .ok l
        ∧ List.Perm l [⟨ChapField.num 2⟩, ⟨ChapField.num 1⟩]
        ∧ l.Pairwise (fun a b => keyOf a ≤ keyOf b))
      ∧ ∀ body2 : List ChapterD,
          MangaReaderAPI.get_chapters (ApiResponse.ok body2) = .ok body2) :=
  ⟨by decide, c9_per_client_sorting [⟨ChapField.num 2⟩, ⟨ChapField.num 1⟩] (by decide)⟩
